import Mathlib

/-!
Verification of the natural-api routing, validation and templating core.

This file gives a shallow embedding, in Lean 4, of the core of the
`natural-api` repository (a prompt-based HTTP routing server written in
Python) and proves properties of that embedding.

Embedded components and their sources:
* `src/prompts/router.py`   — route matching (`DynamicRouter`)
* `src/prompts/variables.py` — `${...}` variable substitution
* `src/prompts/composer.py` — prompt composition with a project preamble
* `src/prompts/body_validator.py` — body-schema validation (pydantic v2)
* `src/main.py` — dry-run flag parsing and precedence
* `src/providers/codex.py` — codex provider command construction / dry-run

Python `dict[str, T]` values are embedded as association lists
`List (String × T)` with first-match lookup (dict keys are unique in all
uses, so `List.lookup` agrees with dict indexing).  Python floats are
embedded as rationals `ℚ`; every float literal appearing in the claims
(5, 5.0, 5.5) is exactly representable, so this is faithful on the inputs
considered.
-/

set_option autoImplicit false

namespace NaturalApi

/-! ## Router  (`src/prompts/router.py`)

`DynamicRouter._extract_path_params` builds a Python regular expression
from a FastAPI-style pattern by textually replacing `{name}` with the
named group `(?P<name>[^/]+)` and `{name:path}` with `(?P<name>.+)`,
anchoring with `^...$`, and running `re.match`.  Literal characters of
the pattern are *not* escaped, so they keep their regex meaning.

We embed the constructed regex as a token list: each literal character of
the pattern becomes a `lit` token (where `'.'` matches any character
except a newline, as the regex metacharacter does), and each placeholder
becomes a `param` token matching one-or-more characters of the class
`[^/]` (single-segment) or `.` (path-type), greedily with backtracking —
exactly the behaviour of the generated groups.  Duplicate parameter names
make the generated regex invalid (`re.error`: redefinition of group
name), which the source catches and turns into "no match".  Regex
metacharacters other than `'.'` do not occur in the claims considered
and are embedded as plain literals. -/

/-- Python `str.upper()`, character-wise (faithful on ASCII, the only
characters appearing in HTTP methods). -/
def pyUpper (s : String) : String := String.mk (s.data.map Char.toUpper)

/-- Python `str.lower()`, character-wise (faithful on ASCII). -/
def pyLower (s : String) : String := String.mk (s.data.map Char.toLower)

/-- Metadata of one loaded prompt file (`loader.PromptMetadata`),
restricted to the fields the router, the dry-run logic and the executor
read.  `filepath` (a `Path`) and `body_schema` are omitted; the body
schema enters the development separately as `List BodyFieldSchema`.
`loader.load_prompts` upper-cases `method` at load time
(`loader.py:67`). -/
structure PromptMetadata where
  filename : String
  method : String := "GET"
  route : Option String := none
  model : Option String := none
  agent : Option String := none
  raw_content : String := ""
  dry : Option Bool := none
deriving DecidableEq, Repr

inductive MatchType where
  | explicit
  | fallback
deriving DecidableEq, Repr

/-- Result of route matching (`router.RouteMatch`). -/
structure RouteMatch where
  prompt : PromptMetadata
  match_type : MatchType
  path_params : List (String × String)
deriving DecidableEq, Repr

/-- One element of the regular expression generated by
`_extract_path_params`. -/
inductive PatToken where
  /-- a literal character of the pattern, kept unescaped -/
  | lit (c : Char)
  /-- a named group: `(?P<name>[^/]+)` when `isPathType = false`,
  `(?P<name>.+)` when `isPathType = true` -/
  | param (name : String) (isPathType : Bool)
deriving DecidableEq, Repr

/-- First character of the identifier class `[a-zA-Z_]` used by the
placeholder regex `\{([a-zA-Z_][a-zA-Z0-9_]*)(?::path)?\}`. -/
def isIdentStart (c : Char) : Bool :=
  (('a' ≤ c) && (c ≤ 'z')) || (('A' ≤ c) && (c ≤ 'Z')) || c = '_'

/-- Subsequent identifier characters `[a-zA-Z0-9_]`. -/
def isIdentChar (c : Char) : Bool :=
  isIdentStart c || (('0' ≤ c) && (c ≤ '9'))

/-- Parse one placeholder body (the text after an opening `{`):
an identifier followed by `}` (single-segment) or by `:path}`
(path-type).  Returns the name, the path-type flag and the remaining
characters. -/
def parseParam (cs : List Char) : Option (String × Bool × List Char) :=
  match cs with
  | [] => none
  | c :: t =>
    if isIdentStart c then
      let name := String.mk (c :: t.takeWhile isIdentChar)
      match t.dropWhile isIdentChar with
      | '}' :: r => some (name, false, r)
      | ':' :: 'p' :: 'a' :: 't' :: 'h' :: '}' :: r => some (name, true, r)
      | _ => none
    else none

/-- Turn a route pattern into regex tokens; characters not forming a
placeholder stay literal (the source performs the two `re.sub`
replacements and leaves everything else untouched).  The fuel argument
is the number of characters still allowed to be consumed; it is
initialised to the pattern length, which suffices because every step
consumes at least one character. -/
def tokenizePatternAux : Nat → List Char → List PatToken
  | 0, _ => []
  | _ + 1, [] => []
  | n + 1, c :: cs =>
    if c = '{' then
      match parseParam cs with
      | some (name, isPath, rest) => .param name isPath :: tokenizePatternAux n rest
      | none => .lit c :: tokenizePatternAux n cs
    else .lit c :: tokenizePatternAux n cs

def tokenizePattern (pattern : String) : List PatToken :=
  tokenizePatternAux pattern.length pattern.data

/-- Names of the named groups, in order of appearance (the source's
`params_info`). -/
def paramNames (ts : List PatToken) : List String :=
  ts.filterMap fun t =>
    match t with
    | .param n _ => some n
    | .lit _ => none

def hasDuplicates : List String → Bool
  | [] => false
  | x :: xs => xs.contains x || hasDuplicates xs

/-- A literal pattern character used as regex text: `'.'` matches any
character except `'\n'`; every other character matches itself.  (No
escaping is applied by the source.) -/
def litMatches (p c : Char) : Bool :=
  if p = '.' then c ≠ '\n' else p = c

/-- Character class of a named group: `[^/]` for single-segment
parameters, `.` (anything but a newline) for path-type parameters. -/
def paramClass (isPathType : Bool) (c : Char) : Bool :=
  if isPathType then c ≠ '\n' else c ≠ '/'

/-- Anchored match of the generated regex against the whole path,
returning the named groups in order (`match.groupdict()`).  Greedy
one-or-more groups with backtracking: each group first takes the longest
class-satisfying prefix and shortens it (down to one character) until
the remaining tokens match the remaining input. -/
def reMatchTokens : List PatToken → List Char → Option (List (String × String))
  | [], [] => some []
  | [], _ :: _ => none
  | .lit _ :: _, [] => none
  | .lit p :: rest, c :: cs =>
    if litMatches p c then reMatchTokens rest cs else none
  | .param name isPath :: rest, input =>
    let maxTake := (input.takeWhile (paramClass isPath)).length
    (List.range maxTake).findSome? fun i =>
      let k := maxTake - i
      match reMatchTokens rest (input.drop k) with
      | some ps => some ((name, String.mk (input.take k)) :: ps)
      | none => none

/-- `DynamicRouter._extract_path_params` (router.py:130-175).  Duplicate
group names raise `re.error` at regex compilation, caught and returned
as no-match. -/
def extract_path_params (pattern path : String) : Option (List (String × String)) :=
  let tokens := tokenizePattern pattern
  if hasDuplicates (paramNames tokens) then none
  else reMatchTokens tokens path.data

/-- `DynamicRouter._match_explicit` (router.py:74-97): first prompt with
a declared route, equal (already upper-cased) method and a successful
pattern match. -/
def match_explicit (prompts : List PromptMetadata) (method path : String) : Option RouteMatch :=
  match prompts with
  | [] => none
  | p :: ps =>
    match p.route with
    | none => match_explicit ps method path
    | some r =>
      if p.method ≠ method then match_explicit ps method path
      else
        match extract_path_params r path with
        | some params => some ⟨p, .explicit, params⟩
        | none => match_explicit ps method path

/-- The prompt-scanning loop of `_match_fallback` (router.py:120-126):
first prompt whose filename equals the requested segment. -/
def match_fallback_loop (prompts : List PromptMetadata) (filename : String) : Option RouteMatch :=
  match prompts with
  | [] => none
  | p :: ps =>
    if p.filename = filename then some ⟨p, .fallback, []⟩
    else match_fallback_loop ps filename

/-- Python `path.startswith("/")`. -/
def startsWithSlash (path : String) : Bool :=
  match path.data with
  | '/' :: _ => true
  | _ => false

/-- Python `path[1:]`: the string without its first character. -/
def dropFirstChar (path : String) : String :=
  String.mk path.data.tail

/-- Python `"/" in s`. -/
def containsSlash (s : String) : Bool :=
  s.data.contains '/'

/-- `DynamicRouter._match_fallback` (router.py:99-128). -/
def match_fallback (prompts : List PromptMetadata) (method path : String) : Option RouteMatch :=
  if method ≠ "GET" then none
  else if ¬ startsWithSlash path then none
  else
    let filename := dropFirstChar path
    if containsSlash filename then none
    else match_fallback_loop prompts filename

/-- `DynamicRouter.match_route` (router.py:42-72): upper-case the
request method, try the explicit pass, then the fallback pass. -/
def match_route (prompts : List PromptMetadata) (method path : String) : Option RouteMatch :=
  let m := pyUpper method
  match match_explicit prompts m path with
  | some rm => some rm
  | none => match_fallback prompts m path

/-! Specification-side description of `match_route`, written from the
spec's words (§4.2 of the spec / claim C3), to be compared with the
translation of the source above.  The explicit pass is "iterate loaded
prompts in load order; skip prompts without a declared route or with a
non-matching method (case-insensitive compare after normalizing to
upper-case); return the first successful match"; the fallback pass is
"only if no explicit match, and only for GET: the request path, stripped
of its leading slash, must be a single path segment (no further `/`);
find a prompt whose filename equals that segment; return it with an
empty parameter map". -/

def explicitPassSpec (prompts : List PromptMetadata) (method path : String) : Option RouteMatch :=
  prompts.findSome? fun p =>
    match p.route with
    | none => none
    | some r =>
      if pyUpper p.method = pyUpper method then
        (extract_path_params r path).map fun params => ⟨p, .explicit, params⟩
      else none

def fallbackPassSpec (prompts : List PromptMetadata) (method path : String) : Option RouteMatch :=
  if pyUpper method = "GET" ∧ startsWithSlash path ∧ ¬ containsSlash (dropFirstChar path) then
    (prompts.find? fun p => p.filename == dropFirstChar path).map fun p => ⟨p, .fallback, []⟩
  else none

def match_route_specification (prompts : List PromptMetadata) (method path : String) :
    Option RouteMatch :=
  match explicitPassSpec prompts method path with
  | some rm => some rm
  | none => fallbackPassSpec prompts method path

/-! ## Variable substitution  (`src/prompts/variables.py`)

`substitute_variables` replaces every match of

    VARIABLE_PATTERN = \$\{(?:(route|body)\.)?([a-zA-Z_][a-zA-Z0-9_]*)(?::([^}]*))?\}

left-to-right by `replace_match`.  We embed the regex as a deterministic
parser `parseVariable` over the character list: at a given position it
either recognises one placeholder (returning namespace, variable name,
optional default, and the remaining characters) or fails.  The only
backtracking point of the regex — the optional greedy namespace group —
is reproduced by first attempting the namespaced parse and falling back
to the bare-name parse on failure.  `re.sub` copies a character and
retries at the next position whenever no match starts at the current
one; the scanner `substituteAux` does the same.  Parameter values are
already strings at every call site (`main.py:521` stringifies the
validated body), so Python's `str(...)` conversion is the identity
here. -/

/-- Parse `[a-zA-Z_][a-zA-Z0-9_]*` (the variable-name group). -/
def parseVarName (cs : List Char) : Option (String × List Char) :=
  match cs with
  | [] => none
  | c :: t =>
    if isIdentStart c then
      some (String.mk (c :: t.takeWhile isIdentChar), t.dropWhile isIdentChar)
    else none

/-- Parse `(?::([^}]*))?\}`: either a closing brace, or a colon, a
brace-free default, and a closing brace. -/
def parseDefaultAndBrace (cs : List Char) : Option (Option String × List Char) :=
  match cs with
  | [] => none
  | c :: t =>
    if c = '}' then some (none, t)
    else if c = ':' then
      match t.dropWhile (· ≠ '}') with
      | _ :: r => some (some (String.mk (t.takeWhile (· ≠ '}'))), r)
      | [] => none
    else none

/-- Parse the optional namespace group `(?:(route|body)\.)?`. -/
def stripNamespace (cs : List Char) : Option (String × List Char) :=
  if cs.take 6 = "route.".data then some ("route", cs.drop 6)
  else if cs.take 5 = "body.".data then some ("body", cs.drop 5)
  else none

/-- Bare-name parse (namespace group not taken). -/
def parsePlainVar (cs : List Char) : Option (Option String × String × Option String × List Char) :=
  match parseVarName cs with
  | none => none
  | some (name, r1) =>
    match parseDefaultAndBrace r1 with
    | none => none
    | some (d, r2) => some (none, name, d, r2)

/-- One match attempt of `VARIABLE_PATTERN` at the head of `cs`.
Returns `(namespace, variable name, default, rest)` on success. -/
def parseVariable (cs : List Char) : Option (Option String × String × Option String × List Char) :=
  match cs with
  | c1 :: c2 :: body =>
    if c1 = '$' ∧ c2 = '{' then
      match stripNamespace body with
      | some (ns, r1) =>
        (match parseVarName r1 with
         | some (name, r2) =>
           (match parseDefaultAndBrace r2 with
            | some (d, r3) => some (some ns, name, d, r3)
            | none => parsePlainVar body)
         | none => parsePlainVar body)
      | none => parsePlainVar body
    else none
  | _ => none

/-- `replace_match` (variables.py:59-105): namespaced lookup, legacy
route-then-body lookup for the bare form, then the declared default,
then the empty string. -/
def replace_match (route_params body_params : List (String × String))
    (ns : Option String) (var_name : String) (default_value : Option String) : String :=
  let fallback :=
    match default_value with
    | some d => d
    | none => ""
  if ns = some "route" then
    match route_params.lookup var_name with
    | some v => v
    | none => fallback
  else if ns = some "body" then
    match body_params.lookup var_name with
    | some v => v
    | none => fallback
  else
    match route_params.lookup var_name with
    | some v => v
    | none =>
      match body_params.lookup var_name with
      | some v => v
      | none => fallback

/-- The `re.sub` scan of `substitute_variables`: at each position,
either replace a placeholder match and continue after it, or copy one
character.  The fuel argument (initially the template length) bounds the
number of consumed characters; every step consumes at least one, so the
initial fuel is never exhausted. -/
def substituteAux (rp bp : List (String × String)) : Nat → List Char → List Char
  | 0, cs => cs
  | _ + 1, [] => []
  | n + 1, c :: cs =>
    match parseVariable (c :: cs) with
    | some (ns, name, d, rest) =>
      (replace_match rp bp ns name d).data ++ substituteAux rp bp n rest
    | none => c :: substituteAux rp bp n cs

/-- `substitute_variables` (variables.py:21-108). -/
def substitute_variables (template : String) (rp bp : List (String × String)) : String :=
  String.mk (substituteAux rp bp template.length template.data)

/-- Does some position of `cs` start a `VARIABLE_PATTERN` match?  This
is "the string contains a `${...}` token" in the round-trip property. -/
def containsVariableAt (cs : List Char) : Bool :=
  (List.range cs.length).any fun i => (parseVariable (cs.drop i)).isSome

def containsVariable (s : String) : Bool := containsVariableAt s.data

/-- Is the placeholder's lookup (step (1) of the resolution order)
successful, i.e. is the placeholder "declared" in the matching map(s)? -/
def declaredLookup (rp bp : List (String × String)) (ns : Option String) (name : String) : Bool :=
  if ns = some "route" then (rp.lookup name).isSome
  else if ns = some "body" then (bp.lookup name).isSome
  else (rp.lookup name).isSome || (bp.lookup name).isSome

/-- "The template contains only declared placeholders": scanning like
`substituteAux`, every placeholder's lookup succeeds, and every `'$'`
character is part of a placeholder match.  (The second condition rules
out fragments such as `"${a:"` that could combine with substituted text
into a fresh token.) -/
def onlyDeclaredAux (rp bp : List (String × String)) : Nat → List Char → Bool
  | 0, _ => true
  | _ + 1, [] => true
  | n + 1, c :: cs =>
    match parseVariable (c :: cs) with
    | some (ns, name, _, rest) =>
      declaredLookup rp bp ns name && onlyDeclaredAux rp bp n rest
    | none => decide (c ≠ '$') && onlyDeclaredAux rp bp n cs

def onlyDeclaredPlaceholders (rp bp : List (String × String)) (s : String) : Bool :=
  onlyDeclaredAux rp bp s.length s.data

/-- No value of the parameter map contains a `'$'`. -/
def mapValuesDollarFree (m : List (String × String)) : Bool :=
  m.all fun kv => !(kv.2.data.contains '$')

/-! ## Prompt composition  (`src/prompts/composer.py`)

`compose_prompt(prompt_body, project_id)` reads `AGENTS.md` for the
project (`None` when missing, unreadable, or — because of the `not
agents` truthiness test — empty).  The file content is embedded as an
explicit `Option String` argument.  If the preamble contains the literal
`{{PROMPT}}` placeholder every occurrence is replaced by the prompt
body; otherwise the result is preamble, blank line, body. -/

def promptPlaceholder : String := "\x7b\x7bPROMPT\x7d\x7d"

/-- Python `needle in hay` (substring containment). -/
def containsSubstr (hay needle : List Char) : Bool :=
  (List.range (hay.length + 1)).any fun i => (hay.drop i).take needle.length = needle

/-- Python `str.replace`: replace every non-overlapping occurrence,
left to right.  Fuel-driven scan; the needle is `{{PROMPT}}` (nonempty),
so each step consumes at least one character. -/
def replaceAllAux (needle repl : List Char) : Nat → List Char → List Char
  | 0, cs => cs
  | _ + 1, [] => []
  | n + 1, c :: cs =>
    if (c :: cs).take needle.length = needle then
      repl ++ replaceAllAux needle repl n ((c :: cs).drop needle.length)
    else c :: replaceAllAux needle repl n cs

/-- `compose_prompt` (composer.py:39-63), with the `AGENTS.md` content
(or its absence) passed in explicitly. -/
def compose_prompt (prompt_body : String) (agents : Option String) : String :=
  match agents with
  | none => prompt_body
  | some a =>
    if a = "" then prompt_body
    else if containsSubstr a.data promptPlaceholder.data then
      String.mk (replaceAllAux promptPlaceholder.data prompt_body.data a.data.length a.data)
    else a ++ "\n\n" ++ prompt_body

/-- Specification-side description of one placeholder's resolution,
written from the spec's words (claim C6): "(1) namespaced/legacy lookup
in the appropriate map(s); (2) if absent, the declared default literal;
(3) if no default, the empty string". -/
def resolutionSpec (rp bp : List (String × String)) (ns : Option String)
    (name : String) (dflt : Option String) : String :=
  let looked : Option String :=
    if ns = some "route" then rp.lookup name
    else if ns = some "body" then bp.lookup name
    else (rp.lookup name).orElse fun _ => bp.lookup name
  match looked with
  | some v => v
  | none => dflt.getD ""

/-! ## Dry-run handling  (`src/main.py`)  and the codex provider
(`src/providers/codex.py`) -/

/-- `_parse_dry_flag` (main.py:22-38): parse the `x-dry` header or the
`?dry` query value into an optional boolean. -/
def parse_dry_flag (value : Option String) : Option Bool :=
  match value with
  | none => none
  | some v =>
    if v = "" then some true
    else
      let normalized := pyLower v
      if normalized = "true" ∨ normalized = "1" then some true
      else if normalized = "false" ∨ normalized = "0" then some false
      else none

/-- The dry-run resolution of `dynamic_prompt_handler` (main.py:381-385):
`match.prompt.dry if ... is not None else (dry_header if ... else
(dry_query if ... else False))`. -/
def resolve_dry_run (promptDry dryHeader dryQuery : Option Bool) : Bool :=
  match promptDry with
  | some d => d
  | none =>
    match dryHeader with
    | some h => h
    | none =>
      match dryQuery with
      | some q => q
      | none => false

/-- `AIProviderResult` (providers/base.py). -/
structure AIProviderResult where
  stdout : String
  stderr : String
  returncode : Int
  success : Bool
  command : String
  error_message : Option String
deriving DecidableEq, Repr

/-- The single-quote character, written by code point to keep string
literals free of quote characters. -/
def sq : Char := Char.ofNat 39

/-- Characters `shlex.quote` leaves unquoted: ASCII word characters
plus `@` `%` `+` `=` `:` `,` `.` `/` and `-`. -/
def shlexSafeChar (c : Char) : Bool :=
  c.isAlphanum || c = '_' || c = '@' || c = '%' || c = '+' || c = '=' ||
    c = ':' || c = ',' || c = '.' || c = '/' || c = '-'

/-- Python `shlex.quote`. -/
def shlexQuote (s : String) : String :=
  if s = "" then String.mk [sq, sq]
  else if s.data.all shlexSafeChar then s
  else
    String.mk
      ([sq] ++ (s.data.map fun c => if c = sq then [sq, '"', sq, '"', sq] else [c]).flatten ++ [sq])

/-- The argument list built by `CodexProvider.execute`
(codex.py:44-52). -/
def buildCodexCmd (prompt : String) (model : Option String) : List String :=
  ["codex", "exec", "--sandbox", "workspace-write"] ++
    (match model with
     | some m => ["--model", m]
     | none => ["--model", "gpt-5.1-codex-mini"]) ++
    [prompt]

/-- `command_string` (codex.py:56): shell-quoted command line. -/
def commandString (cmd : List String) : String :=
  String.intercalate " " (cmd.map shlexQuote)

/-- Outcome of `CodexProvider.execute` up to the point where it either
returns a result or hands the built command to `subprocess.Popen`.  The
`spawn` constructor marks the only program point that invokes the
external process; what happens afterwards depends on the environment
and is outside the embedding. -/
inductive CodexOutcome where
  | result (r : AIProviderResult)
  | spawn (cmd : List String) (commandStr : String)
deriving DecidableEq, Repr

/-- `CodexProvider.execute` (codex.py:21-67): availability check, command
construction, dry-run short-circuit, otherwise process spawn. -/
def codex_execute (available : Bool) (prompt : String) (model : Option String)
    (dry_run : Bool) : CodexOutcome :=
  if ¬ available then
    .result ⟨"", "Codex CLI not found in PATH", -1, false, "codex (not available)",
      some "Codex CLI is not installed or not available in PATH"⟩
  else
    let cmd := buildCodexCmd prompt model
    let cs := commandString cmd
    if dry_run then .result ⟨cs, "", 0, true, cs, none⟩
    else .spawn cmd cs

def isSpawn : CodexOutcome → Bool
  | .spawn _ _ => true
  | .result _ => false

/-! ## Body validation  (`src/prompts/body_validator.py`)

`build_pydantic_model` compiles a list of `BodyFieldSchema` into a
pydantic-v2 model and `validate_request_body` runs it.  We embed the
composition of model construction and validation as a pure function of
the schema list and the decoded JSON body.

Embedding notes, all reflecting pydantic v2 defaults:
* `create_model` is called without any model config
  (the `ConfigDict` import at body_validator.py:171 is unused), so the
  model keeps the default `extra='ignore'` behaviour: body keys not
  declared in the schema are dropped silently and never produce an
  `extra_forbidden` error.
* Lax coercion: numeral-shaped strings and ints are accepted for
  `float` fields; common textual/0-1 forms are accepted for `bool`
  fields; numbers are *not* accepted for `str` fields.
* `field_validator` runs in its default `after` mode, so the enum and
  max-decimals validators see the value after type coercion (a number
  field's value is always a float there).
* Defaults are not re-validated (`validate_default` is false).
* A `missing` error carries `msg = "Field required"` and no `ctx`.
* Python floats are embedded as `ℚ`; their `str(...)` rendering is
  modelled exactly for floats that denote short decimal fractions
  (all values reaching it in this development). -/

inductive PyNum where
  | int (i : Int)
  | float (q : ℚ)
deriving DecidableEq, Repr

/-- A decoded JSON value (the request body is a JSON object whose
values the claims restrict to scalars and null). -/
inductive JsonValue where
  | str (s : String)
  | num (n : PyNum)
  | bool (b : Bool)
  | null
deriving DecidableEq, Repr

/-- `BodyFieldSchema` (body_validator.py:32-50). -/
structure BodyFieldSchema where
  name : String
  type : String
  required : Bool := false
  default : Option JsonValue := none
  description : Option String := none
  min_length : Option Nat := none
  max_length : Option Nat := none
  pattern : Option String := none
  enum : Option (List String) := none
  min : Option ℚ := none
  max : Option ℚ := none
  max_decimals : Option Int := none
deriving DecidableEq, Repr

/-- One entry of `pydantic.ValidationError.errors()`: its `type`, `loc`,
`msg` and `ctx` (context values rendered to text, as the error formatter
interpolates them into strings). -/
structure PydanticError where
  etype : String
  loc : List String
  msg : String
  ctx : List (String × String) := []
deriving DecidableEq, Repr

/-- Count of factors `p` in `n` (auxiliary, fuel-driven so that it
reduces definitionally). -/
def countFactorsAux (p : Nat) : Nat → Nat → Nat
  | 0, _ => 0
  | fuel + 1, n =>
    if n % p = 0 ∧ 2 ≤ p ∧ 2 ≤ n then countFactorsAux p fuel (n / p) + 1 else 0

def countFactors (p n : Nat) : Nat := countFactorsAux p n n

/-- Number of digits after the decimal point in `str(float)`: the least
`k` with `q * 10^k` integral, but at least 1 (`str(10.0) = "10.0"`).
Exact for floats denoting short decimal fractions. -/
def pyFloatDecimalPlaces (q : ℚ) : Nat :=
  max 1 (max (countFactors 2 q.den) (countFactors 5 q.den))

def padLeftZeros (width : Nat) (n : Nat) : String :=
  let d := toString n
  String.mk (List.replicate (width - d.length) '0') ++ d

/-- `str(v)` for a Python float (exact on short decimal fractions). -/
def pyFloatRepr (q : ℚ) : String :=
  let places := pyFloatDecimalPlaces q
  let scaled : Int := q.num * (10 ^ places) / q.den
  let a := scaled.natAbs
  (if q.num < 0 then "-" else "") ++
    toString (a / 10 ^ places) ++ "." ++ padLeftZeros places (a % 10 ^ places)

/-- Python `int(v)` on a float: truncation toward zero. -/
def pyTrunc (q : ℚ) : Int := q.num.tdiv q.den

/-- Value of a nonempty all-digit character list. -/
def digitsToNat (cs : List Char) : Nat :=
  cs.foldl (fun a c => a * 10 + (c.toNat - 48)) 0

/-- Lax `str → float` coercion (`float(s)`), modelled for plain decimal
numerals: optional sign, then digits with an optional fractional part.
(Exponent and infinity forms do not occur in this development.) -/
def parsePyNumber (s : String) : Option ℚ :=
  let signAndRest : ℚ × List Char :=
    match s.data with
    | '-' :: t => (-1, t)
    | '+' :: t => (1, t)
    | t => (1, t)
  let sign := signAndRest.1
  let rest := signAndRest.2
  let intPart := rest.takeWhile (· ≠ '.')
  if ¬ intPart.all Char.isDigit then none
  else
    match rest.dropWhile (· ≠ '.') with
    | [] => if intPart = [] then none else some (sign * digitsToNat intPart)
    | _ :: frac =>
      if frac.all Char.isDigit ∧ (intPart ≠ [] ∨ frac ≠ []) then
        some (sign * ((digitsToNat intPart : ℚ) +
          (digitsToNat frac : ℚ) / (10 ^ frac.length : ℚ)))
      else none

/-- `re.search`-style check for the string `pattern` constraint,
modelled for patterns built from literal characters, the `'.'`
wildcard, and the `^` / `$` anchors.  (No claim exercises this
constraint.) -/
def litSeqMatches (body cs : List Char) : Bool :=
  (body.zip cs).all fun pc => litMatches pc.1 pc.2

def reSearchLite (p st : String) : Bool :=
  let d := p.data
  let anchS := d.head? = some '^'
  let d1 := if anchS then d.tail else d
  let anchE := d1.getLast? = some '$'
  let body := if anchE then d1.dropLast else d1
  (List.range (st.data.length + 1)).any fun i =>
    (!anchS || decide (i = 0)) &&
      (let sfx := st.data.drop i
       (if anchE then decide (body.length = sfx.length) else decide (body.length ≤ sfx.length)) &&
        litSeqMatches body sfx)

/-- Python `repr` of a list of strings, as interpolated by the enum
validator's message. -/
def pyStrListRepr (l : List String) : String :=
  "[" ++ String.intercalate ", " (l.map fun st => String.mk ([sq] ++ st.data ++ [sq])) ++ "]"

def validateStringPattern (s : BodyFieldSchema) (st : String) : Except PydanticError JsonValue :=
  match s.pattern with
  | some p =>
    if reSearchLite p st then .ok (.str st)
    else
      .error ⟨"string_pattern_mismatch", [s.name],
        "String should match pattern " ++ String.mk ([sq] ++ p.data ++ [sq]),
        [("pattern", p)]⟩
  | none => .ok (.str st)

def validateStringMax (s : BodyFieldSchema) (st : String) : Except PydanticError JsonValue :=
  match s.max_length with
  | some m =>
    if st.length > m then
      .error ⟨"string_too_long", [s.name],
        "String should have at most " ++ toString m ++ " characters",
        [("max_length", toString m)]⟩
    else validateStringPattern s st
  | none => validateStringPattern s st

/-- Type acceptance and `Field` constraints for a string field:
`min_length`, then `max_length`, then `pattern`. -/
def validateStringField (s : BodyFieldSchema) (v : JsonValue) : Except PydanticError JsonValue :=
  match v with
  | .str st =>
    match s.min_length with
    | some n =>
      if st.length < n then
        .error ⟨"string_too_short", [s.name],
          "String should have at least " ++ toString n ++ " characters",
          [("min_length", toString n)]⟩
      else validateStringMax s st
    | none => validateStringMax s st
  | _ => .error ⟨"string_type", [s.name], "Input should be a valid string", []⟩

def validateNumMax (s : BodyFieldSchema) (q : ℚ) : Except PydanticError ℚ :=
  match s.max with
  | some M =>
    if q > M then
      .error ⟨"less_than_equal", [s.name],
        "Input should be less than or equal to " ++ pyFloatRepr M,
        [("le", pyFloatRepr M)]⟩
    else .ok q
  | none => .ok q

/-- `Field` constraints for a number field: `ge` (from `min`), then
`le` (from `max`). -/
def validateNumRange (s : BodyFieldSchema) (q : ℚ) : Except PydanticError ℚ :=
  match s.min with
  | some m =>
    if q < m then
      .error ⟨"greater_than_equal", [s.name],
        "Input should be greater than or equal to " ++ pyFloatRepr m,
        [("ge", pyFloatRepr m)]⟩
    else validateNumMax s q
  | none => validateNumMax s q

/-- Type acceptance and coercion for a number (`float`) field. -/
def validateNumberField (s : BodyFieldSchema) (v : JsonValue) : Except PydanticError ℚ :=
  match v with
  | .num (.int i) => validateNumRange s (i : ℚ)
  | .num (.float q) => validateNumRange s q
  | .str st =>
    match parsePyNumber st with
    | some q => validateNumRange s q
    | none =>
      .error ⟨"float_parsing", [s.name],
        "Input should be a valid number, unable to parse string as a number", []⟩
  | _ => .error ⟨"float_type", [s.name], "Input should be a valid number", []⟩

/-- Type acceptance and lax coercion for a boolean field. -/
def validateBooleanField (s : BodyFieldSchema) (v : JsonValue) : Except PydanticError JsonValue :=
  match v with
  | .bool b => .ok (.bool b)
  | .str st =>
    let n := pyLower st
    if n = "true" ∨ n = "t" ∨ n = "yes" ∨ n = "y" ∨ n = "on" ∨ n = "1" then .ok (.bool true)
    else if n = "false" ∨ n = "f" ∨ n = "no" ∨ n = "n" ∨ n = "off" ∨ n = "0" then .ok (.bool false)
    else
      .error ⟨"bool_parsing", [s.name],
        "Input should be a valid boolean, unable to interpret input", []⟩
  | .num (.int i) =>
    if i = 0 then .ok (.bool false)
    else if i = 1 then .ok (.bool true)
    else .error ⟨"bool_parsing", [s.name],
      "Input should be a valid boolean, unable to interpret input", []⟩
  | .num (.float q) =>
    if q = 0 then .ok (.bool false)
    else if q = 1 then .ok (.bool true)
    else .error ⟨"bool_parsing", [s.name],
      "Input should be a valid boolean, unable to interpret input", []⟩
  | .null => .error ⟨"bool_type", [s.name], "Input should be a valid boolean", []⟩

/-- The pydantic error reported when `None`/absence hits a
non-optional field of the given declared type. -/
def nullTypeError (s : BodyFieldSchema) : PydanticError :=
  if s.type = "number" then ⟨"float_type", [s.name], "Input should be a valid number", []⟩
  else if s.type = "boolean" then ⟨"bool_type", [s.name], "Input should be a valid boolean", []⟩
  else ⟨"string_type", [s.name], "Input should be a valid string", []⟩

/-- Type-level validation of a provided value.  A field that is neither
required nor defaulted has python type `T | None`
(body_validator.py:207-209), so JSON null is accepted exactly there. -/
def typeValidate (s : BodyFieldSchema) (v : JsonValue) : Except PydanticError JsonValue :=
  match v with
  | .null =>
    if s.default = none ∧ ¬ s.required then .ok .null
    else .error (nullTypeError s)
  | _ =>
    if s.type = "number" then (validateNumberField s v).map fun q => .num (.float q)
    else if s.type = "boolean" then validateBooleanField s v
    else validateStringField s v

/-- The `after`-mode enum validator (body_validator.py:230-242),
registered whenever `enum` is declared. -/
def enumValidator (s : BodyFieldSchema) (v : JsonValue) : Except PydanticError JsonValue :=
  match s.enum with
  | none => .ok v
  | some allowed =>
    match v with
    | .null => .ok v
    | .str st =>
      if allowed.contains st then .ok v
      else
        .error ⟨"value_error", [s.name],
          "Value error, must be one of " ++ pyStrListRepr allowed ++ ", got " ++
            String.mk ([sq] ++ st.data ++ [sq]), []⟩
    | _ =>
      .error ⟨"value_error", [s.name],
        "Value error, value not among the allowed string values", []⟩

/-- The `after`-mode max-decimals validator (body_validator.py:244-272),
registered for number fields with `maxDecimals`; it sees the
post-coercion value.  For `maxDecimals = 0` a float must equal its
truncation; otherwise the digits after the point in `str(v)` are
counted. -/
def decimalsValidator (s : BodyFieldSchema) (v : JsonValue) : Except PydanticError JsonValue :=
  match s.max_decimals with
  | none => .ok v
  | some maxDec =>
    if s.type ≠ "number" then .ok v
    else
      match v with
      | .num (.float q) =>
        if maxDec = 0 then
          if q ≠ ((pyTrunc q : Int) : ℚ) then
            .error ⟨"value_error", [s.name],
              "Value error, maximum 0 decimal places allowed (must be integer)", []⟩
          else .ok v
        else
          let dp := pyFloatDecimalPlaces q
          if (dp : Int) > maxDec then
            .error ⟨"value_error", [s.name],
              "Value error, maximum " ++ toString maxDec ++
                " decimal places allowed, got " ++ toString dp, []⟩
          else .ok v
      | _ => .ok v

/-- Validation of one declared field against the (possibly absent)
value supplied for it: absence resolves to the declared default, to
null for optional fields, or to a `missing` error for required fields
(a declared default makes the field optional, body_validator.py:204-211;
defaults are not re-validated); a present value runs type validation,
then the registered after-validators in registration order. -/
def validateField (s : BodyFieldSchema) (v? : Option JsonValue) : Except PydanticError JsonValue :=
  match v? with
  | none =>
    match s.default with
    | some d => .ok d
    | none =>
      if s.required then .error ⟨"missing", [s.name], "Field required", []⟩
      else .ok JsonValue.null
  | some v =>
    match typeValidate s v with
    | .error e => .error e
    | .ok v1 =>
      match enumValidator s v1 with
      | .error e => .error e
      | .ok v2 => decimalsValidator s v2

/-- `model(**body)` followed by `model_dump()` for the model built by
`build_pydantic_model` (body_validator.py:161-281): fields are validated
in declaration order and all collected errors are reported; on success
the dump lists every declared field with its validated value.  Body keys
not declared in the schema are ignored (`extra='ignore'`, the pydantic
default — no model config is ever set). -/
def pydanticValidate (schemas : List BodyFieldSchema) (body : List (String × JsonValue)) :
    Except (List PydanticError) (List (String × JsonValue)) :=
  let results := schemas.map fun s => (s.name, validateField s (body.lookup s.name))
  let errs := results.filterMap fun nr =>
    match nr.2 with
    | .error e => some e
    | .ok _ => none
  match errs with
  | [] =>
    .ok (results.filterMap fun nr =>
      match nr.2 with
      | .ok v => some (nr.1, v)
      | .error _ => none)
  | _ => .error errs

/-- One formatted validation error (the dictionaries built by
`format_validation_errors`); `none` in an optional field means the key
is absent from the dictionary. -/
structure FormattedError where
  field : String
  error : String
  received : Option JsonValue := none
  expected : Option String := none
  suggestion : Option String := none
deriving DecidableEq, Repr

/-- `_format_expected` (body_validator.py:382-400): derive the expected
description from the error's `ctx`, falling back to the error's own
message. -/
def format_expected (e : PydanticError) : String :=
  match e.ctx.lookup "min_length", e.ctx.lookup "max_length" with
  | some mn, some mx => "string with length " ++ mn ++ "-" ++ mx
  | some mn, none => "string with minimum length " ++ mn
  | none, some mx => "string with maximum length " ++ mx
  | none, none =>
    match e.ctx.lookup "ge", e.ctx.lookup "le" with
    | some g, some l => "number in range [" ++ g ++ ", " ++ l ++ "]"
    | some g, none => "number >= " ++ g
    | none, some l => "number <= " ++ l
    | none, none => e.msg

/-- `format_validation_errors` (body_validator.py:308-379). -/
def format_validation_errors (errors : List PydanticError)
    (received_body : List (String × JsonValue)) : List FormattedError :=
  errors.map fun e =>
    let field_name := "body." ++ String.intercalate "." e.loc
    let received : Option JsonValue :=
      some ((e.loc.head?.bind fun k => received_body.lookup k).getD JsonValue.null)
    if e.etype = "missing" then
      ⟨field_name, "field is required but missing", none, some (format_expected e), none⟩
    else if e.etype = "string_type" then
      ⟨field_name, "must be a string", received, some "string", none⟩
    else if e.etype = "float_type" ∨ e.etype = "int_type" then
      ⟨field_name, "must be a number", received, some "number", none⟩
    else if e.etype = "bool_type" then
      ⟨field_name, "must be a boolean", received, some "boolean (true or false)", none⟩
    else if e.etype = "extra_forbidden" then
      ⟨field_name, "unexpected field not in schema", received, none,
        some "remove this field or update prompt schema"⟩
    else ⟨field_name, e.msg, received, none, none⟩

/-- `validate_request_body` (body_validator.py:284-305), composed with
the model construction it is always paired with. -/
def validate_request_body (schemas : List BodyFieldSchema) (body : List (String × JsonValue)) :
    Option (List (String × JsonValue)) × Option (List FormattedError) :=
  match pydanticValidate schemas body with
  | .ok d => (some d, none)
  | .error es => (none, some (format_validation_errors es body))

/-- The number field of the `maxDecimals` boundary scenario. -/
def countSchema : BodyFieldSchema :=
  { name := "count", type := "number", required := true, max_decimals := some 0 }

/-- The string field of the length boundary scenario. -/
def usernameSchema : BodyFieldSchema :=
  { name := "username", type := "string", required := true,
    min_length := some 3, max_length := some 10 }

/-- A minimal one-field schema used for the undeclared-key experiment. -/
def nameSchema : BodyFieldSchema :=
  { name := "name", type := "string", required := true }

/-- The prompt used in routing Scenario B. -/
def apiPrompt : PromptMetadata :=
  { filename := "api", method := "POST", route := some "/api/{version}/user/{id}" }

/-- A prompt whose metadata (method POST, an explicit route) contradicts
its fallback use; used to show the fallback pass ignores metadata. -/
def reportPrompt : PromptMetadata :=
  { filename := "report", method := "POST", route := some "/x/{y}" }

/-! ## Theorems -/

theorem match_fallback_loop_eq_find (prompts : List PromptMetadata) (fn : String) :
    match_fallback_loop prompts fn =
      (prompts.find? fun p => p.filename == fn).map fun p => (⟨p, .fallback, []⟩ : RouteMatch) := by
  induction prompts with
  | nil => rfl
  | cons p ps ih =>
    by_cases h : p.filename = fn
    · simp [match_fallback_loop, List.find?_cons_of_pos, h]
    · rw [match_fallback_loop, List.find?_cons_of_neg]
      · simp [h, ih]
      · simp [h]

theorem match_explicit_eq_spec (prompts : List PromptMetadata) (method path : String)
    (h : ∀ p ∈ prompts, pyUpper p.method = p.method) :
    match_explicit prompts (pyUpper method) path = explicitPassSpec prompts method path := by
  induction prompts with
  | nil => rfl
  | cons p ps ih =>
    have hp : pyUpper p.method = p.method := h p (by simp)
    have hps : ∀ q ∈ ps, pyUpper q.method = q.method := fun q hq => h q (by simp [hq])
    simp only [match_explicit, explicitPassSpec, List.findSome?_cons]
    rw [← explicitPassSpec, ← ih hps]
    cases hr : p.route with
    | none => rfl
    | some r =>
      dsimp only
      by_cases hm : p.method = pyUpper method
      · have hm' : pyUpper p.method = pyUpper method := by rw [hp, hm]
        rw [if_neg (by simpa using hm), if_pos hm']
        cases he : extract_path_params r path with
        | some params => rfl
        | none => rfl
      · have hm' : ¬ (pyUpper p.method = pyUpper method) := by rw [hp]; exact hm
        rw [if_pos hm, if_neg hm']

theorem match_fallback_eq_spec (prompts : List PromptMetadata) (method path : String) :
    match_fallback prompts (pyUpper method) path = fallbackPassSpec prompts method path := by
  unfold match_fallback fallbackPassSpec
  by_cases hg : pyUpper method = "GET"
  · by_cases hs : startsWithSlash path
    · by_cases hc : containsSlash (dropFirstChar path)
      · simp [hg, hs, hc]
      · simp [hg, hs, hc, match_fallback_loop_eq_find]
    · simp [hg, hs]
  · simp [hg]

/-- Claim C3: for every loaded prompt set (whose methods are upper-cased,
as the loader guarantees) and every request, `match_route` first runs the
explicit pass — iterating prompts in load order, skipping those without a
declared route or whose upper-cased method differs, returning the first
successful pattern unification — and only if that pass yields nothing
does the fallback pass run, which requires the request method to be GET
and the path minus its leading slash to be a single segment containing
no slash, and returns the first prompt whose filename equals that
segment with an empty parameter map; if neither pass succeeds the
result is no match.  Stated as equality with a specification-side
definition written from the spec's words. -/
theorem match_route_follows_spec (prompts : List PromptMetadata) (method path : String)
    (h : ∀ p ∈ prompts, pyUpper p.method = p.method) :
    match_route prompts method path = match_route_specification prompts method path := by
  show (match match_explicit prompts (pyUpper method) path with
        | some rm => some rm
        | none => match_fallback prompts (pyUpper method) path) =
      match_route_specification prompts method path
  rw [match_explicit_eq_spec prompts method path h, match_fallback_eq_spec]
  rfl

/-- Witness for C3 at a concrete prompt set and request. -/
theorem match_route_follows_spec_witness :
    pyUpper apiPrompt.method = apiPrompt.method ∧
      match_route [apiPrompt] "post" "/api/v2/user/123" =
        match_route_specification [apiPrompt] "post" "/api/v2/user/123" :=
  ⟨by decide, match_route_follows_spec [apiPrompt] "post" "/api/v2/user/123" (by decide)⟩

/-- Claim C9: the fallback pass selects a prompt solely by filename
equality and ignores the prompt's own metadata: for every prompt set
and GET request whose single-segment path (minus the leading slash)
equals the filename of the first prompt found, if the explicit pass
matched nothing, `match_route` returns that prompt via fallback with an
empty parameter map — with no condition whatsoever on that prompt's
declared method or route. -/
theorem fallback_ignores_prompt_metadata (prompts : List PromptMetadata) (p : PromptMetadata)
    (path : String)
    (hslash : startsWithSlash path = true)
    (hseg : containsSlash (dropFirstChar path) = false)
    (hexp : match_explicit prompts "GET" path = none)
    (hfind : prompts.find? (fun q => q.filename == dropFirstChar path) = some p) :
    match_route prompts "GET" path = some ⟨p, .fallback, []⟩ := by
  show (match match_explicit prompts (pyUpper "GET") path with
        | some rm => some rm
        | none => match_fallback prompts (pyUpper "GET") path) =
      some ⟨p, .fallback, []⟩
  have hu : pyUpper "GET" = "GET" := by decide
  rw [hu, hexp]
  dsimp only
  have hfb := match_fallback_eq_spec prompts "GET" path
  rw [hu] at hfb
  rw [hfb]
  unfold fallbackPassSpec
  rw [if_pos ⟨by decide, by simp [hslash], by simp [hseg]⟩, hfind]
  rfl

/-- Witness for C9: a prompt declaring method POST and an explicit
route is still returned by GET-fallback on its filename. -/
theorem fallback_ignores_prompt_metadata_witness :
    match_explicit [reportPrompt] "GET" "/report" = none ∧
      match_route [reportPrompt] "GET" "/report" = some ⟨reportPrompt, .fallback, []⟩ :=
  ⟨by decide,
    fallback_ignores_prompt_metadata [reportPrompt] reportPrompt "/report"
      (by decide) (by decide) (by decide) (by decide)⟩



/-- Claim C2: pattern `/greet/{name}` against `/greet/Alice` matches
with `name = "Alice"`; the prompt with pattern `/api/{version}/user/{id}`
and method POST matches `POST /api/v2/user/123` with
`version = "v2", id = "123"`; the same path with GET yields no match at
all — the explicit pass fails on the method and the fallback pass fails
because the path has multiple segments. -/
theorem scenario_route_matching :
    extract_path_params "/greet/\x7bname\x7d" "/greet/Alice" = some [("name", "Alice")] ∧
      match_route [apiPrompt] "POST" "/api/v2/user/123" =
        some ⟨apiPrompt, .explicit, [("version", "v2"), ("id", "123")]⟩ ∧
      match_route [apiPrompt] "GET" "/api/v2/user/123" = none ∧
      match_explicit [apiPrompt] "GET" "/api/v2/user/123" = none ∧
      match_fallback [apiPrompt] "GET" "/api/v2/user/123" = none :=
  ⟨by decide, by decide, by decide, by decide, by decide⟩

/-- Claim C10: literal segments of a route pattern are interpreted as
regular-expression text without escaping — the pattern `/file.txt`
successfully unifies with the different path `/fileXtxt`, because the
unescaped `.` acts as a wildcard. -/
theorem literal_pattern_chars_are_regex :
    extract_path_params "/file.txt" "/fileXtxt" = some [] ∧
      ("/file.txt" == "/fileXtxt") = false :=
  ⟨by decide, by decide⟩

/-- Claim C4: dry-run precedence is prompt flag over header over query —
a prompt-level `dry: true` forces a dry run whatever the `x-dry` header
and `?dry` query say, in particular when both parse to `false`; a
dry-run never reaches the process-spawning branch of the provider; and
when the codex binary is available the dry-run result carries the
literal command line as both its stdout and its command field, with
return code 0 and success `true`. -/
theorem dry_run_precedence_and_preview :
    (∀ dryHeader dryQuery : Option Bool, resolve_dry_run (some true) dryHeader dryQuery = true) ∧
      resolve_dry_run (some true) (parse_dry_flag (some "false")) (parse_dry_flag (some "false")) = true ∧
      (∀ (available : Bool) (prompt : String) (model : Option String),
        isSpawn (codex_execute available prompt model true) = false) ∧
      (∀ (prompt : String) (model : Option String),
        codex_execute true prompt model true =
          .result ⟨commandString (buildCodexCmd prompt model), "", 0, true,
            commandString (buildCodexCmd prompt model), none⟩) := by
  refine ⟨fun _ _ => rfl, rfl, fun available _ _ => ?_, fun _ _ => rfl⟩
  cases available <;> rfl

/-- Claim C5: for a number field with `maxDecimals: 0`, validation
accepts `5` and `5.0` (the error channel is empty) and rejects `5.5`
(the data channel is empty); for a string field with `minLength: 3` and
`maxLength: 10`, validation rejects `"ab"` and `"toolongvalue"` and
accepts `"abc"`.  The rationals `mkRat 5 1` and `mkRat 11 2` are the
embeddings of the floats `5.0` and `5.5`, as the first conjunct
records. -/
theorem boundary_field_validation :
    ((5.0 : ℚ) = mkRat 5 1 ∧ (5.5 : ℚ) = mkRat 11 2) ∧
      (validate_request_body [countSchema] [("count", JsonValue.num (.int 5))]).2 = none ∧
      (validate_request_body [countSchema] [("count", JsonValue.num (.float (mkRat 5 1)))]).2 = none ∧
      (validate_request_body [countSchema] [("count", JsonValue.num (.float (mkRat 11 2)))]).1 = none ∧
      (validate_request_body [usernameSchema] [("username", JsonValue.str "ab")]).1 = none ∧
      (validate_request_body [usernameSchema] [("username", JsonValue.str "toolongvalue")]).1 = none ∧
      (validate_request_body [usernameSchema] [("username", JsonValue.str "abc")]).2 = none :=
  ⟨⟨by norm_num [mkRat, Rat.normalize], by norm_num [mkRat, Rat.normalize]⟩,
    by decide, by decide, by decide, by decide, by decide, by decide⟩

/-- Claim C1 (code bug): contrary to the claim, a JSON-object body with
an undeclared top-level key (`typo`) passes validation; the normalized
data silently drops the key and no error is produced.  The model built
by `build_pydantic_model` never sets `extra='forbid'`, so pydantic's
default `extra='ignore'` applies and the `extra_forbidden` branch of
`format_validation_errors` is unreachable. -/
theorem undeclared_key_silently_dropped :
    validate_request_body [nameSchema] [("name", JsonValue.str "x"), ("typo", JsonValue.num (.int 1))]
      = (some [("name", JsonValue.str "x")], none) := by decide

/-- Claim C8 (code bug): contrary to the claim, the formatted error for
a required field that is absent carries the generic pydantic message
`"Field required"` as its `expected` description — not a description
derived from the field's declared constraints (here `minLength 3`,
`maxLength 10`).  A pydantic `missing` error carries no `ctx`, so every
constraint-deriving branch of `_format_expected` is dead for missing
fields. -/
theorem missing_field_expected_is_generic :
    validate_request_body [usernameSchema] [] =
      (none, some [{ field := "body.username", error := "field is required but missing",
                     received := none, expected := some "Field required", suggestion := none }]) ∧
      format_expected ⟨"missing", ["username"], "Field required", []⟩ = "Field required" :=
  ⟨by decide, rfl⟩

theorem replace_match_eq_resolutionSpec (rp bp : List (String × String)) (ns : Option String)
    (name : String) (d : Option String) :
    replace_match rp bp ns name d = resolutionSpec rp bp ns name d := by
  unfold replace_match resolutionSpec
  by_cases h1 : ns = some "route" <;> by_cases h2 : ns = some "body" <;>
    simp [h1, h2, Option.orElse] <;>
    cases rp.lookup name <;> cases bp.lookup name <;> cases d <;> rfl

/-- Claim C6: each placeholder occurrence is resolved independently —
whenever a `${...}` token parses at the current position, substitution
emits exactly the resolution-order value (lookup in the matching map(s);
else the declared default; else the empty string, as `resolutionSpec`
states following the spec) followed by the substitution of the rest —
and in particular the template
`"User ${route.name:Guest} wants ${body.action:browse}"` with empty
route parameters and body `{action: "code"}` yields
`"User Guest wants code"`. -/
theorem placeholder_resolution_order :
    (∀ (rp bp : List (String × String)) (cs : List Char) (ns : Option String)
        (name : String) (d : Option String) (rest : List Char) (n : Nat),
      parseVariable cs = some (ns, name, d, rest) →
        substituteAux rp bp (n + 1) cs =
          (resolutionSpec rp bp ns name d).data ++ substituteAux rp bp n rest) ∧
      substitute_variables "User $\x7broute.name:Guest\x7d wants $\x7bbody.action:browse\x7d"
        [] [("action", "code")] = "User Guest wants code" := by
  constructor
  · intro rp bp cs ns name d rest n hp
    match cs, hp with
    | c1 :: c2 :: body, hp =>
      simp only [substituteAux, hp, replace_match_eq_resolutionSpec]
  · decide



/-- Witness for C6 at a concrete placeholder. -/
theorem placeholder_resolution_order_witness :
    substituteAux [] [("action", "code")] 24 ("$\x7bbody.action:browse\x7d").data =
      (resolutionSpec [] [("action", "code")] (some "body") "action" (some "browse")).data ++
        substituteAux [] [("action", "code")] 23 [] :=
  placeholder_resolution_order.1 [] [("action", "code")] ("$\x7bbody.action:browse\x7d").data
    (some "body") "action" (some "browse") [] 23 (by decide)

theorem length_dropWhile_le (p : Char → Bool) (l : List Char) :
    (l.dropWhile p).length ≤ l.length := by
  induction l with
  | nil => simp [List.dropWhile]
  | cons a t ih =>
    cases hp : p a
    all_goals simp [List.dropWhile, hp]
    all_goals omega

theorem parseVarName_length {cs : List Char} {name : String} {r : List Char}
    (h : parseVarName cs = some (name, r)) : r.length < cs.length := by
  match cs with
  | [] => simp [parseVarName] at h
  | c :: t =>
    simp only [parseVarName] at h
    split at h
    · have hr : r = t.dropWhile isIdentChar := by
        have := congrArg (fun x => Prod.snd <$> x) h
        simpa using this.symm
      rw [hr]
      calc (t.dropWhile isIdentChar).length ≤ t.length := length_dropWhile_le _ _
        _ < (c :: t).length := by simp
    · simp at h

theorem parseDefaultAndBrace_length {cs : List Char} {d : Option String} {r : List Char}
    (h : parseDefaultAndBrace cs = some (d, r)) : r.length < cs.length := by
  match cs with
  | [] => simp [parseDefaultAndBrace] at h
  | c :: t =>
    simp only [parseDefaultAndBrace] at h
    split at h
    · have hr : r = t := by
        have := congrArg (fun x => Prod.snd <$> x) h
        simpa using this.symm
      rw [hr]; simp
    · split at h
      · cases hd : t.dropWhile (· ≠ '}') with
        | nil => rw [hd] at h; simp at h
        | cons x xs =>
          rw [hd] at h
          have hr : r = xs := by
            have := congrArg (fun y => Prod.snd <$> y) h
            simpa using this.symm
          have h2 : (x :: xs).length ≤ t.length := hd ▸ length_dropWhile_le _ _
          rw [hr]
          simp only [List.length_cons] at h2 ⊢
          omega
      · simp at h

theorem stripNamespace_length {cs : List Char} {ns : String} {r : List Char}
    (h : stripNamespace cs = some (ns, r)) : r.length < cs.length := by
  simp only [stripNamespace] at h
  split at h
  · next h6 =>
    have hr : r = cs.drop 6 := by
      have := congrArg (fun x => Prod.snd <$> x) h
      simpa using this.symm
    have hlen : 6 ≤ cs.length := by
      have := congrArg List.length h6
      simp [List.length_take] at this
      omega
    rw [hr]
    simp [List.length_drop]
    omega
  · split at h
    · next h5 =>
      have hr : r = cs.drop 5 := by
        have := congrArg (fun x => Prod.snd <$> x) h
        simpa using this.symm
      have hlen : 5 ≤ cs.length := by
        have := congrArg List.length h5
        simp [List.length_take] at this
        omega
      rw [hr]
      simp [List.length_drop]
      omega
    · simp at h



theorem parsePlainVar_length {cs : List Char} {ns : Option String} {name : String}
    {d : Option String} {rest : List Char}
    (h : parsePlainVar cs = some (ns, name, d, rest)) : rest.length < cs.length := by
  simp only [parsePlainVar] at h
  cases h1 : parseVarName cs with
  | none => rw [h1] at h; simp at h
  | some nr =>
    obtain ⟨n1, r1⟩ := nr
    rw [h1] at h
    dsimp only at h
    cases h2 : parseDefaultAndBrace r1 with
    | none => rw [h2] at h; simp at h
    | some dr =>
      obtain ⟨d2, r2⟩ := dr
      rw [h2] at h
      have : rest = r2 := by
        have := congrArg (fun x => (fun y => y.2.2.2) <$> x) h
        simpa using this.symm
      rw [this]
      exact lt_trans (parseDefaultAndBrace_length h2) (parseVarName_length h1)

theorem parseVariable_length {cs : List Char} {ns : Option String} {name : String}
    {d : Option String} {rest : List Char}
    (h : parseVariable cs = some (ns, name, d, rest)) : rest.length < cs.length := by
  match cs with
  | [] => simp [parseVariable] at h
  | [c] => simp [parseVariable] at h
  | c1 :: c2 :: body =>
    simp only [parseVariable] at h
    split at h
    · have hbody : body.length < (c1 :: c2 :: body).length := by simp; omega
      cases hs : stripNamespace body with
      | none =>
        rw [hs] at h
        dsimp only at h
        exact lt_trans (parsePlainVar_length h) hbody
      | some nsr =>
        obtain ⟨ns1, r1⟩ := nsr
        rw [hs] at h
        dsimp only at h
        cases hn : parseVarName r1 with
        | none =>
          rw [hn] at h
          dsimp only at h
          exact lt_trans (parsePlainVar_length h) hbody
        | some nr =>
          obtain ⟨n2, r2⟩ := nr
          rw [hn] at h
          dsimp only at h
          cases hd : parseDefaultAndBrace r2 with
          | none =>
            rw [hd] at h
            dsimp only at h
            exact lt_trans (parsePlainVar_length h) hbody
          | some dr =>
            obtain ⟨d3, r3⟩ := dr
            rw [hd] at h
            dsimp only at h
            have : rest = r3 := by
              have := congrArg (fun x => (fun y => y.2.2.2) <$> x) h
              simpa using this.symm
            rw [this]
            exact lt_trans (lt_trans (parseDefaultAndBrace_length hd) (parseVarName_length hn))
              (lt_trans (stripNamespace_length hs) hbody)
    · simp at h

theorem parseVariable_not_dollar {c : Char} (cs : List Char) (hc : c ≠ '$') :
    parseVariable (c :: cs) = none := by
  match cs with
  | [] => rfl
  | c2 :: t =>
    simp only [parseVariable]
    rw [if_neg]
    intro hand
    exact hc hand.1

theorem containsVariableAt_nil : containsVariableAt [] = false := rfl

theorem containsVariableAt_cons (c : Char) (cs : List Char) :
    containsVariableAt (c :: cs) =
      ((parseVariable (c :: cs)).isSome || containsVariableAt cs) := by
  simp only [containsVariableAt, List.length_cons, List.range_succ_eq_map,
    List.any_cons, List.any_map, List.drop_zero]
  congr 1

theorem containsVariableAt_append_clean {xs : List Char} (ys : List Char)
    (hxs : ∀ x ∈ xs, x ≠ '$') :
    containsVariableAt (xs ++ ys) = containsVariableAt ys := by
  induction xs with
  | nil => simp
  | cons x t ih =>
    have hx : x ≠ '$' := hxs x (by simp)
    have ht : ∀ y ∈ t, y ≠ '$' := fun y hy => hxs y (by simp [hy])
    rw [List.cons_append, containsVariableAt_cons, parseVariable_not_dollar _ hx, ih ht]
    simp

theorem lookup_some_mem {m : List (String × String)} {k v : String}
    (h : m.lookup k = some v) : (k, v) ∈ m := by
  induction m with
  | nil => simp [List.lookup] at h
  | cons kv t ih =>
    obtain ⟨a, b⟩ := kv
    rw [List.lookup] at h
    cases hk : (k == a) with
    | true =>
      rw [hk] at h
      have hb : b = v := by simpa using h
      have ha : k = a := by simpa using hk
      simp [ha, hb]
    | false =>
      rw [hk] at h
      simp only [cond_false] at h
      exact List.mem_cons_of_mem _ (ih h)



theorem lookup_value_clean {m : List (String × String)} {k v : String}
    (hm : mapValuesDollarFree m = true) (h : m.lookup k = some v) :
    ∀ x ∈ v.data, x ≠ '$' := by
  have hmem := lookup_some_mem h
  have hv := (List.all_eq_true.mp hm) (k, v) hmem
  intro x hx
  simp only [Bool.not_eq_true'] at hv
  intro hx'
  subst hx'
  simp at hv
  exact hv hx

theorem replace_match_clean {rp bp : List (String × String)} {ns : Option String}
    {name : String} (d : Option String)
    (hrp : mapValuesDollarFree rp = true) (hbp : mapValuesDollarFree bp = true)
    (hdecl : declaredLookup rp bp ns name = true) :
    ∀ x ∈ (replace_match rp bp ns name d).data, x ≠ '$' := by
  unfold replace_match
  unfold declaredLookup at hdecl
  by_cases h1 : ns = some "route"
  · rw [if_pos h1] at hdecl ⊢
    cases hv : rp.lookup name with
    | none => rw [hv] at hdecl; simp at hdecl
    | some v => dsimp only; exact lookup_value_clean hrp hv
  · rw [if_neg h1] at hdecl ⊢
    by_cases h2 : ns = some "body"
    · rw [if_pos h2] at hdecl ⊢
      cases hv : bp.lookup name with
      | none => rw [hv] at hdecl; simp at hdecl
      | some v => dsimp only; exact lookup_value_clean hbp hv
    · rw [if_neg h2] at hdecl ⊢
      cases hv : rp.lookup name with
      | some v => dsimp only; exact lookup_value_clean hrp hv
      | none =>
        rw [hv] at hdecl
        simp only [Option.isSome_none, Bool.false_or] at hdecl
        cases hv2 : bp.lookup name with
        | none => rw [hv2] at hdecl; simp at hdecl
        | some v => dsimp only; exact lookup_value_clean hbp hv2

theorem substituteAux_cons_some {c : Char} {cs : List Char} {ns : Option String}
    {name : String} {d : Option String} {rest : List Char}
    (rp bp : List (String × String)) (n : Nat)
    (h : parseVariable (c :: cs) = some (ns, name, d, rest)) :
    substituteAux rp bp (n + 1) (c :: cs) =
      (replace_match rp bp ns name d).data ++ substituteAux rp bp n rest := by
  simp only [substituteAux, h]

theorem substituteAux_cons_none {c : Char} {cs : List Char}
    (rp bp : List (String × String)) (n : Nat)
    (h : parseVariable (c :: cs) = none) :
    substituteAux rp bp (n + 1) (c :: cs) = c :: substituteAux rp bp n cs := by
  simp only [substituteAux, h]

theorem onlyDeclaredAux_cons_some {c : Char} {cs : List Char} {ns : Option String}
    {name : String} {d : Option String} {rest : List Char}
    (rp bp : List (String × String)) (n : Nat)
    (h : parseVariable (c :: cs) = some (ns, name, d, rest)) :
    onlyDeclaredAux rp bp (n + 1) (c :: cs) =
      (declaredLookup rp bp ns name && onlyDeclaredAux rp bp n rest) := by
  simp only [onlyDeclaredAux, h]

theorem onlyDeclaredAux_cons_none {c : Char} {cs : List Char}
    (rp bp : List (String × String)) (n : Nat)
    (h : parseVariable (c :: cs) = none) :
    onlyDeclaredAux rp bp (n + 1) (c :: cs) =
      (decide (c ≠ '$') && onlyDeclaredAux rp bp n cs) := by
  simp only [onlyDeclaredAux, h]

theorem onlyDeclaredAux_congr (rp bp : List (String × String)) :
    ∀ (n m : Nat) (cs : List Char), cs.length ≤ n → cs.length ≤ m →
      onlyDeclaredAux rp bp n cs = onlyDeclaredAux rp bp m cs := by
  intro n
  induction n with
  | zero =>
    intro m cs h1 h2
    have hcs : cs = [] := List.eq_nil_of_length_eq_zero (Nat.le_zero.mp h1)
    subst hcs
    cases m <;> rfl
  | succ n ih =>
    intro m cs h1 h2
    cases cs with
    | nil => cases m <;> rfl
    | cons c t =>
      cases m with
      | zero => simp at h2
      | succ m' =>
        cases hp : parseVariable (c :: t) with
        | some r =>
          obtain ⟨ns, name, d, rest⟩ := r
          have hlt := parseVariable_length hp
          simp only [List.length_cons] at h1 h2 hlt
          rw [onlyDeclaredAux_cons_some rp bp n hp, onlyDeclaredAux_cons_some rp bp m' hp,
            ih m' rest (by omega) (by omega)]
        | none =>
          simp only [List.length_cons] at h1 h2
          rw [onlyDeclaredAux_cons_none rp bp n hp, onlyDeclaredAux_cons_none rp bp m' hp,
            ih m' t (by omega) (by omega)]

theorem substituteAux_no_tokens (rp bp : List (String × String))
    (hrp : mapValuesDollarFree rp = true) (hbp : mapValuesDollarFree bp = true) :
    ∀ (n : Nat) (cs : List Char), cs.length ≤ n →
      onlyDeclaredAux rp bp cs.length cs = true →
      containsVariableAt (substituteAux rp bp n cs) = false := by
  intro n
  induction n with
  | zero =>
    intro cs h1 _
    have hcs : cs = [] := List.eq_nil_of_length_eq_zero (Nat.le_zero.mp h1)
    subst hcs
    rfl
  | succ n ih =>
    intro cs hlen hod
    cases cs with
    | nil => rfl
    | cons c t =>
      simp only [List.length_cons] at hod hlen
      cases hp : parseVariable (c :: t) with
      | some r =>
        obtain ⟨ns, name, d, rest⟩ := r
        rw [onlyDeclaredAux_cons_some rp bp t.length hp, Bool.and_eq_true] at hod
        obtain ⟨hdecl, hrest⟩ := hod
        have hlt := parseVariable_length hp
        simp only [List.length_cons] at hlt
        rw [substituteAux_cons_some rp bp n hp,
          containsVariableAt_append_clean _ (replace_match_clean d hrp hbp hdecl)]
        refine ih rest (by omega) ?_
        rw [onlyDeclaredAux_congr rp bp rest.length t.length rest (by omega) (by omega)]
        exact hrest
      | none =>
        rw [onlyDeclaredAux_cons_none rp bp t.length hp, Bool.and_eq_true,
          decide_eq_true_eq] at hod
        obtain ⟨hc, ht⟩ := hod
        rw [substituteAux_cons_none rp bp n hp, containsVariableAt_cons,
          parseVariable_not_dollar _ hc]
        simp only [Option.isSome_none, Bool.false_or]
        exact ih t (by omega) ht



/-- Claim C7 counterexample: the round-trip property is false as
stated.  The composed template `"${route.a}"` contains only declared
placeholders (`a` is bound in the route map), yet substituting yields a
string that still contains a `${...}` token, because the substituted
value itself is `"${route.a}"`. -/
theorem roundtrip_claim_counterexample :
    onlyDeclaredPlaceholders [("a", "$\x7broute.a\x7d")] []
        (compose_prompt "$\x7broute.a\x7d" none) = true ∧
      containsVariable
        (substitute_variables (compose_prompt "$\x7broute.a\x7d" none)
          [("a", "$\x7broute.a\x7d")] []) = true :=
  ⟨by decide, by decide⟩

/-- Claim C7 (amended): for every prompt body, preamble and parameter
maps such that the composed template contains only declared placeholders
(every `$` begins a placeholder whose lookup succeeds) and no parameter
value contains a `$`, substituting the composed prompt yields a string
free of any `${...}` tokens. -/
theorem roundtrip_free_of_tokens (promptBody : String) (agents : Option String)
    (rp bp : List (String × String))
    (hdecl : onlyDeclaredPlaceholders rp bp (compose_prompt promptBody agents) = true)
    (hrp : mapValuesDollarFree rp = true) (hbp : mapValuesDollarFree bp = true) :
    containsVariable (substitute_variables (compose_prompt promptBody agents) rp bp) = false := by
  exact substituteAux_no_tokens rp bp hrp hbp
    (compose_prompt promptBody agents).data.length
    (compose_prompt promptBody agents).data le_rfl hdecl

/-- Witness for C7 (amended) at a concrete template. -/
theorem roundtrip_free_of_tokens_witness :
    containsVariable
      (substitute_variables (compose_prompt "Hello $\x7broute.name:X\x7d" none)
        [("name", "Alice")] []) = false :=
  roundtrip_free_of_tokens "Hello $\x7broute.name:X\x7d" none [("name", "Alice")] []
    (by decide) (by decide) (by decide)

end NaturalApi
